import Mathlib

/-!
Verification development for a small course-listing HTTP service
(`main.py` / `schemas.py`).  The service exposes a listing endpoint with
filters, sort and pagination over a `course` document collection, a
facet endpoint returning distinct filter values, and a one-time seeding
operation.  The document store itself is an external collaborator; the
store is modelled as a list of documents, a filter produced by the query
builder is evaluated against one document at a time, and store-level
operations (count, find with sort/skip/limit, distinct, insert_many) are
modelled as the corresponding list operations.
-/

namespace CoursesApi

/-! ## String helpers

Python string comparison is lexicographic on code points; `lower()` maps
each character to lower case.  Mongo `$regex` with option `"i"` applied
to the literal (metacharacter-free) patterns this service receives is
case-insensitive substring containment; the store being an external
collaborator, its evaluation of such a condition is modelled from the
spec as case-insensitive substring containment. -/

/-- Lexicographic order on character lists by code point, the order
Python's `sorted` uses on strings. -/
def lexLe : List Char → List Char → Bool
  | [], _ => true
  | _ :: _, [] => false
  | a :: as, b :: bs =>
    if a.toNat < b.toNat then true
    else if b.toNat < a.toNat then false
    else lexLe as bs

/-- Lexicographic string comparison (Python `sorted` order). -/
def strLe (a b : String) : Bool := lexLe a.toList b.toList

/-- Does `needle` occur as a contiguous sublist of `hay`? -/
def listContains (hay needle : List Char) : Bool :=
  (List.range (hay.length + 1)).any fun i => needle.isPrefixOf (List.drop i hay)

/-- Case-insensitive literal substring test: does `needle` occur in
`hay`, ignoring case? -/
def icontains (hay needle : String) : Bool :=
  listContains (hay.toList.map Char.toLower) (needle.toList.map Char.toLower)

/-! ## Data model (`schemas.py`, class `Course`)

Floats are modelled as rationals, the Pydantic-validated non-negative
ints (`rating_count`, `students`, `lessons`) as integers (their `ge=0`
bound is a property to prove about seeded data, not baked into the
type). -/

/-- A `course` document, mirroring `schemas.Course` plus the
`created_at` / `updated_at` fields the seeder adds to each inserted
document (set from the environment, possibly `None`). -/
structure Course where
  title : String
  slug : String
  description : String
  category : String
  level : String
  instructor_name : String
  thumbnail : String
  rating : ℚ
  rating_count : ℤ
  students : ℤ
  lessons : ℤ
  language : String
  duration : String
  is_free : Bool
  price : ℚ
  old_price : Option ℚ
  tags : List String
  created_at : Option String := none
  updated_at : Option String := none
deriving DecidableEq

/-! ## Query parameters and the Mongo filter (`main.py`, `list_courses`,
lines 74-112) -/

/-- The optional filter inputs of `GET /api/courses` (the non-filter
inputs `sort`, `page`, `page_size` are passed separately). -/
structure ListParams where
  q : Option String := none
  category : Option String := none
  level : Option String := none
  is_free : Option Bool := none
  min_price : Option ℚ := none
  max_price : Option ℚ := none
  min_rating : Option ℚ := none
  tag : Option String := none
deriving DecidableEq

/-- One `{field: {$regex: pattern, $options: "i"}}` clause of the `$or`
list built for the `q` parameter. -/
structure RegexCond where
  field : String
  pattern : String
deriving DecidableEq

/-- The value stored under the `price` key: a dict holding the supplied
bounds (`$gte` / `$lte`). -/
structure PriceCond where
  gte : Option ℚ := none
  lte : Option ℚ := none
deriving DecidableEq

/-- The filter dict built by `list_courses` (lines 89-112).  Its key set
is fixed (`$or`, `category`, `level`, `is_free`, `tags`, `price`,
`rating`), so the dict is modelled as a structure with one optional
field per possible key; `none` means the key is absent. -/
structure MongoFilter where
  orRegex : Option (List RegexCond) := none
  category : Option String := none
  level : Option String := none
  is_free : Option Bool := none
  tags_in : Option (List String) := none
  price : Option PriceCond := none
  rating_gte : Option ℚ := none
deriving DecidableEq

/-- Python truthiness of an optional string parameter: `if q:` treats
both `None` and the empty string as falsy. -/
def truthyStr : Option String → Option String
  | some s => if s = "" then none else some s
  | none => none

/-- Lines 90-95: `if q:` install the `$or` list of three
case-insensitive regex conditions. -/
def buildRegexOr (q : Option String) : Option (List RegexCond) :=
  (truthyStr q).map fun s =>
    [⟨"title", s⟩, ⟨"description", s⟩, ⟨"instructor_name", s⟩]

/-- Lines 102-103: `if tag:` install `{"tags": {"$in": [tag]}}`. -/
def buildTagsIn (t : Option String) : Option (List String) :=
  (truthyStr t).map fun s => [s]

/-- Lines 104-110: the `price` key is present when at least one bound
was supplied, and holds exactly the supplied bounds. -/
def buildPrice (a b : Option ℚ) : Option PriceCond :=
  match a, b with
  | none, none => none
  | g, l => some ⟨g, l⟩

/-- The filter-building block of `list_courses` (lines 89-112). -/
def buildFilters (p : ListParams) : MongoFilter :=
  { orRegex := buildRegexOr p.q
    category := truthyStr p.category
    level := truthyStr p.level
    is_free := p.is_free
    tags_in := buildTagsIn p.tag
    price := buildPrice p.min_price p.max_price
    rating_gte := p.min_rating }

/-! ## Evaluation of the produced filter against one document

Modelled from the spec: the external document store evaluates a filter
dict as the conjunction of its per-key conditions; a `$regex` condition
with option `"i"` on the literal patterns this service passes is
case-insensitive substring containment; `$in` on the array field `tags`
matches when some listed value is a member of the document's `tags`. -/

/-- Field access by name for the three string fields the `$or` regex
clauses refer to. -/
def getStrField (c : Course) (f : String) : String :=
  if f = "title" then c.title
  else if f = "description" then c.description
  else if f = "instructor_name" then c.instructor_name
  else ""

/-- Modelled from the spec: store evaluation of one case-insensitive
`$regex` condition with a literal pattern. -/
def regexMatchI (pattern s : String) : Bool := icontains s pattern

/-- Evaluation of the optional `$or` list of regex conditions. -/
def evalRegexOr (o : Option (List RegexCond)) (c : Course) : Bool :=
  match o with
  | some cs => cs.any fun rc => regexMatchI rc.pattern (getStrField c rc.field)
  | none => true

/-- Evaluation of an optional exact string-equality condition. -/
def evalStrEq (o : Option String) (x : String) : Bool :=
  match o with
  | some v => x == v
  | none => true

/-- Evaluation of an optional exact boolean-equality condition. -/
def evalBoolEq (o : Option Bool) (b : Bool) : Bool :=
  match o with
  | some v => b == v
  | none => true

/-- Evaluation of an optional `{"$in": [...]}` condition on `tags`. -/
def evalTagsIn (o : Option (List String)) (tags : List String) : Bool :=
  match o with
  | some vs => vs.any fun v => tags.contains v
  | none => true

/-- Evaluation of the optional `price` range condition. -/
def evalPrice (o : Option PriceCond) (x : ℚ) : Bool :=
  match o with
  | some pc =>
      (match pc.gte with
       | some g => decide (g ≤ x)
       | none => true) &&
      (match pc.lte with
       | some l => decide (x ≤ l)
       | none => true)
  | none => true

/-- Evaluation of the optional `{"rating": {"$gte": r}}` condition. -/
def evalRatingGte (o : Option ℚ) (x : ℚ) : Bool :=
  match o with
  | some r => decide (r ≤ x)
  | none => true

/-- Store evaluation of a produced filter dict against one document:
the conjunction of the per-key conditions. -/
def MongoFilter.matches (f : MongoFilter) (c : Course) : Bool :=
  evalRegexOr f.orRegex c &&
  evalStrEq f.category c.category &&
  evalStrEq f.level c.level &&
  evalBoolEq f.is_free c.is_free &&
  evalTagsIn f.tags_in c.tags &&
  evalPrice f.price c.price &&
  evalRatingGte f.rating_gte c.rating

/-! ## Spec-side filter predicates (for the refinement claims)

`specFilterHolds` follows the spec's words literally: the logical AND of
the predicates for each supplied (non-null) input — exact match for
`category`, `level`, `is_free`; case-insensitive substring in any of
title/description/instructor_name for `q`; membership for `tag`; the
price range; `rating ≥ min_rating`.  `specFilterHoldsNE` is the amended
reading in which a supplied empty string imposes no constraint (it is
treated like an absent parameter). -/

/-- Literal spec reading: AND of the predicates for every supplied
(non-null) input. -/
def specFilterHolds (p : ListParams) (c : Course) : Bool :=
  (match p.q with
   | some s =>
       icontains c.title s || icontains c.description s ||
         icontains c.instructor_name s
   | none => true) &&
  (match p.category with
   | some v => c.category == v
   | none => true) &&
  (match p.level with
   | some v => c.level == v
   | none => true) &&
  (match p.is_free with
   | some v => c.is_free == v
   | none => true) &&
  (match p.tag with
   | some v => c.tags.contains v
   | none => true) &&
  (match p.min_price with
   | some v => decide (v ≤ c.price)
   | none => true) &&
  (match p.max_price with
   | some v => decide (c.price ≤ v)
   | none => true) &&
  (match p.min_rating with
   | some v => decide (v ≤ c.rating)
   | none => true)

/-- Replace supplied-but-empty string inputs by absent ones. -/
def normalizeStrings (p : ListParams) : ListParams :=
  { p with
    q := truthyStr p.q
    category := truthyStr p.category
    level := truthyStr p.level
    tag := truthyStr p.tag }

/-- Amended spec reading: as `specFilterHolds`, but a supplied empty
string imposes no constraint. -/
def specFilterHoldsNE (p : ListParams) (c : Course) : Bool :=
  specFilterHolds (normalizeStrings p) c

/-! ## Sort selection (`main.py` lines 114-121) -/

/-- The fixed sort table `sort_map`. -/
def sort_map : List (String × String × ℤ) :=
  [("popular", ("students", -1)),
   ("rating", ("rating", -1)),
   ("new", ("created_at", -1)),
   ("price_asc", ("price", 1)),
   ("price_desc", ("price", -1))]

/-- `sort_map.get(sort, ("students", -1))` (line 121). -/
def sortKey (sort : String) : String × ℤ :=
  (sort_map.lookup sort).getD ("students", -1)

/-- Numeric sort key of a document for a given sort field.  The seeder
stores the same `created_at` value in every document (line 197), so the
order of a `created_at` sort is degenerate; it is modelled by a
constant key (the store's tie order is unspecified anyway). -/
def sortFieldVal (f : String) (c : Course) : ℚ :=
  if f = "students" then (c.students : ℚ)
  else if f = "rating" then c.rating
  else if f = "price" then c.price
  else 0

/-- Store-side sort of the matching documents by one field, ascending
for direction `1` and descending for `-1`. -/
def sortDocs (field : String) (dir : ℤ) (l : List Course) : List Course :=
  l.mergeSort fun a b =>
    if 0 ≤ dir then decide (sortFieldVal field a ≤ sortFieldVal field b)
    else decide (sortFieldVal field b ≤ sortFieldVal field a)

/-! ## Pagination (`main.py` lines 125 and 135) -/

/-- `skip = (page - 1) * page_size` (line 125). -/
def skipOf (page page_size : ℤ) : ℤ := (page - 1) * page_size

/-- `total_pages = (total + page_size - 1) // page_size if page_size
else 1` (line 135); Python `//` is floor division. -/
def total_pages (total page_size : ℤ) : ℤ :=
  if page_size ≠ 0 then Int.fdiv (total + page_size - 1) page_size else 1

/-! ## Request validation and the listing pipeline

FastAPI validates the declared parameter bounds (lines 78-84: `page ≥
1`, `1 ≤ page_size ≤ 60`, `min_price ≥ 0`, `max_price ≥ 0`, `0 ≤
min_rating ≤ 5`) before the handler body runs, answering a bad-request
validation failure when they are violated; the handler body itself is
total. -/

inductive ApiFailure where
  | validationFailure
deriving DecidableEq

/-- The declared parameter bounds of `list_courses` (lines 78-84). -/
def validRequest (page page_size : ℤ)
    (min_price max_price min_rating : Option ℚ) : Bool :=
  decide (1 ≤ page) && decide (1 ≤ page_size) && decide (page_size ≤ 60) &&
  (match min_price with
   | some v => decide (0 ≤ v)
   | none => true) &&
  (match max_price with
   | some v => decide (0 ≤ v)
   | none => true) &&
  (match min_rating with
   | some v => decide (0 ≤ v) && decide (v ≤ 5)
   | none => true)

/-- The response envelope of `GET /api/courses` (items kept as
documents here; their serialized dict form is modelled separately by
`serialize_course`). -/
structure CoursesResponse where
  items : List Course
  total : ℕ
  page : ℤ
  page_size : ℤ
  total_pages : ℤ
deriving DecidableEq

/-- The `GET /api/courses` handler over a modelled store (lines 72-139):
validation, filter building, count, sort/skip/limit, envelope.  `count`
is the number of matching documents and `find ... skip ... limit ...`
is drop-then-take on the sorted matching documents. -/
def list_courses (store : List Course) (p : ListParams) (sort : String)
    (page page_size : ℤ) : Except ApiFailure CoursesResponse :=
  if validRequest page page_size p.min_price p.max_price p.min_rating then
    let f := buildFilters p
    let matched := store.filter f.matches
    let total := matched.length
    let sk := sortKey sort
    let sorted := sortDocs sk.1 sk.2 matched
    let skip := skipOf page page_size
    Except.ok
      { items := (sorted.drop skip.toNat).take page_size.toNat
        total := total
        page := page
        page_size := page_size
        total_pages := total_pages (total : ℤ) page_size }
  else Except.error ApiFailure.validationFailure

/-! ## Facet endpoint (`main.py`, `get_filters`, lines 142-150)

Modelled from the spec for the external store: `distinct("category")` /
`distinct("level")` return the distinct values of the field across the
collection, and `distinct("tags")` the distinct elements flattened
across all documents' tag arrays, in unspecified order; Python `sorted`
then orders them lexicographically. -/

/-- The `GET /api/courses/filters` handler over a modelled store:
`(categories, levels, tags)`, each distinct and sorted ascending. -/
def get_filters (store : List Course) :
    List String × List String × List String :=
  ((store.map (fun c => c.category)).dedup.mergeSort strLe,
   (store.map (fun c => c.level)).dedup.mergeSort strLe,
   (store.flatMap (fun c => c.tags)).dedup.mergeSort strLe)

/-! ## Seeding (`main.py`, `seed_courses`, lines 153-200) -/

/-- `base_tags` (line 163). -/
def base_tags : List (List String) :=
  [["Design", "UX"], ["Programming", "JavaScript"], ["Marketing"],
   ["Business"], ["Data"], ["Photography"], ["Health"], ["Music"],
   ["Finance"], ["AI"], ["Cloud"], ["Product"]]

/-- `categories` (line 164). -/
def seed_categories : List String :=
  ["Design", "Development", "Marketing", "Business", "Data Science",
   "Photography", "Health & Fitness", "Music", "Finance", "AI", "Cloud",
   "Product"]

/-- `levels` (line 165). -/
def seed_levels : List String := ["Beginner", "Intermediate", "Advanced"]

/-- The loop body of the seeder for index `i` (lines 167-193).  The
float `round(3.5 + (i % 15) * 0.1, 1)` is the rational
`(35 + i % 15) / 10` and `4.2` is `42 / 10`; `created_at` /
`updated_at` are `os.getenv("NOW") or None` (line 197), modelled as the
environment-independent `none`. -/
def mkSeedCourse (i : ℕ) : Course :=
  let cat := seed_categories.getD (i % seed_categories.length) ""
  let lvl := seed_levels.getD (i % seed_levels.length) ""
  let isFree : Bool := decide (i % 5 = 0)
  let price : ℚ := if isFree then 0 else 9 + (i % 6 : ℕ) * 10
  { title := "Course " ++ toString i ++ ": Master " ++ cat ++ " " ++ lvl
    slug := "course-" ++ toString i
    description := "Learn with hands-on projects, quizzes and expert guidance."
    category := cat
    level := lvl
    instructor_name := "Instructor " ++ toString i
    thumbnail := "https://picsum.photos/seed/course" ++ toString i ++ "/600/400"
    rating := if isFree then 42 / 10 else (35 + (i % 15 : ℕ)) / 10
    rating_count := 50 + (i : ℤ) * 3
    students := 200 + (i : ℤ) * 20
    lessons := 10 + (i % 15 : ℕ)
    language := "English"
    duration := toString (6 + i % 8) ++ "h " ++ toString ((i * 7) % 60) ++ "m"
    is_free := isFree
    price := price
    old_price := if isFree || decide (i % 3 ≠ 0) then none else some (price + 20)
    tags := base_tags.getD (i % base_tags.length) [] }

/-- The 24 records `sample` built by the loop `for i in range(1, 25)`. -/
def sample_courses : List Course := (List.range' 1 24).map mkSeedCourse

/-- Outcome reported by `POST /api/courses/seed`: either the
already-seeded message or the number of inserted records. -/
inductive SeedResult where
  | alreadySeeded
  | inserted (n : ℕ)
deriving DecidableEq

/-- The seeding handler over a modelled store: a no-op when the
collection already holds a document (`count_documents({}) > 0`, line
159), otherwise one `insert_many` of the 24 generated records. -/
def seed_courses (coll : List Course) : List Course × SeedResult :=
  if 0 < coll.length then (coll, SeedResult.alreadySeeded)
  else (coll ++ sample_courses, SeedResult.inserted sample_courses.length)

/-! ## Result serializer (`main.py`, `serialize_course`, lines 65-69)

The serializer works on the raw document dict, so documents are
modelled here as ordered key/value lists with BSON-ish values.  A
stored document's identity is its `_id`, an ObjectId whose canonical
string form is its 24-character hex string; the ObjectId is modelled by
that string. -/

/-- A BSON-style value as seen by the serializer. -/
inductive BsonValue where
  | null
  | bool (b : Bool)
  | num (q : ℚ)
  | str (s : String)
  | arr (elems : List BsonValue)
  | oid (hex : String)

/-- Python truthiness of a value, as tested by `if d.get("_id"):`;
an ObjectId is always truthy. -/
def BsonValue.truthy : BsonValue → Bool
  | .null => false
  | .bool b => b
  | .num q => decide (q ≠ 0)
  | .str s => decide (s ≠ "")
  | .arr l => !l.isEmpty
  | .oid _ => true

/-- `str(v)` as used on line 68.  The serializer only ever renders the
`_id` value; for an ObjectId that is its hex string.  Other cases are
never rendered by the code under study and are given arbitrary
renderings. -/
def BsonValue.render : BsonValue → String
  | .str s => s
  | .oid h => h
  | _ => ""

/-- A document as a dict: an ordered association list. -/
abbrev BsonDoc : Type := List (String × BsonValue)

/-- `d.get(k)`: first binding of `k`, if any. -/
def dictGet (k : String) : BsonDoc → Option BsonValue
  | [] => none
  | kv :: rest => if kv.1 = k then some kv.2 else dictGet k rest

/-- `d.pop(k)`: the dict without key `k` (keys are unique in a Python
dict, so removing every binding of `k` is the same operation). -/
def dictRemove (k : String) : BsonDoc → BsonDoc
  | [] => []
  | kv :: rest => if kv.1 = k then dictRemove k rest else kv :: dictRemove k rest

/-- `d[k] = v`: replace the value at `k` in place, or append the new
binding. -/
def dictSet (k : String) (v : BsonValue) : BsonDoc → BsonDoc
  | [] => [(k, v)]
  | kv :: rest =>
      if kv.1 = k then (kv.1, v) :: rest else kv :: dictSet k v rest

/-- `serialize_course` (lines 65-69): when the document has a truthy
`_id`, pop it and store its string form under `id`; otherwise return
the document unchanged (`dict(doc)` copies, so the source document is
never mutated — the model is pure, which captures that directly). -/
def serialize_course (doc : BsonDoc) : BsonDoc :=
  match dictGet "_id" doc with
  | some v => if v.truthy then dictSet "id" (BsonValue.str v.render) (dictRemove "_id" doc) else doc
  | none => doc

/-! ## Clause-level lemmas about the builder -/

/-- Evaluating the built `$or` clause is the case-insensitive substring
test on title, description and instructor name. -/
theorem evalRegexOr_build (q : Option String) (c : Course) :
    evalRegexOr (buildRegexOr q) c =
      (match truthyStr q with
       | some s =>
           icontains c.title s || icontains c.description s ||
             icontains c.instructor_name s
       | none => true) := by
  cases h : truthyStr q <;>
    simp [buildRegexOr, h, evalRegexOr, regexMatchI, getStrField, Bool.or_assoc]

/-- Evaluating the built `$in` clause is membership of the tag. -/
theorem evalTagsIn_build (t : Option String) (tags : List String) :
    evalTagsIn (buildTagsIn t) tags =
      (match truthyStr t with
       | some s => tags.contains s
       | none => true) := by
  cases h : truthyStr t <;> simp [buildTagsIn, h, evalTagsIn]

/-- Evaluating the built price clause is the conjunction of the
supplied bounds. -/
theorem evalPrice_build (a b : Option ℚ) (x : ℚ) :
    evalPrice (buildPrice a b) x =
      ((match a with
        | some v => decide (v ≤ x)
        | none => true) &&
       (match b with
        | some v => decide (x ≤ v)
        | none => true)) := by
  cases a <;> cases b <;> simp [buildPrice, evalPrice]

/-- C1, counterexample input: `category` supplied as the empty string. -/
def c1Params : ListParams := { category := some "" }

/-- C1, counterexample document: its category is non-empty. -/
def c1Doc : Course :=
  { title := "T", slug := "t", description := "D", category := "Design",
    level := "Beginner", instructor_name := "I", thumbnail := "U",
    rating := 4, rating_count := 1, students := 1, lessons := 1,
    language := "English", duration := "1h", is_free := false,
    price := 10, old_price := none, tags := ["Design"] }

/-- C1 fails as stated: with the input `category = ""` supplied
(non-null), the builder produces an unconstrained filter that matches a
document of category `"Design"`, while the logical AND of the
predicates for the supplied inputs contains the exact-match predicate
`category == ""` and rejects it. -/
theorem c1_counterexample :
    (buildFilters c1Params).matches c1Doc = true ∧
      specFilterHolds c1Params c1Doc = false := by
  decide

/-- C1 (amended): for every combination of the optional filter inputs,
the built filter is equivalent to the logical AND of exactly the
predicates for the supplied inputs, where a supplied empty string for
`q`, `category`, `level` or `tag` is treated like an absent input;
absent inputs impose no constraint, and with all inputs absent the
filter matches every document. -/
theorem c1_filter_is_and_of_predicates (p : ListParams) (c : Course) :
    (buildFilters p).matches c = specFilterHoldsNE p c := by
  obtain ⟨q, cat, lvl, free, minp, maxp, minr, tg⟩ := p
  simp only [MongoFilter.matches, buildFilters, specFilterHoldsNE,
    specFilterHolds, normalizeStrings, evalRegexOr_build, evalTagsIn_build,
    evalPrice_build, evalStrEq, evalBoolEq, evalRatingGte]
  simp [Bool.and_assoc]

/-- C2: when a non-empty search text `q` is supplied, the filter is the
`q`-predicate — `q` occurs case-insensitively as a literal substring of
the title, the description or the instructor name — ANDed with the
filter built from all the other inputs. -/
theorem c2_q_is_substring_disjunction (p : ListParams) (q : String)
    (c : Course) (hq : p.q = some q) (hne : q ≠ "") :
    (buildFilters p).matches c =
      ((icontains c.title q || icontains c.description q ||
          icontains c.instructor_name q) &&
        (buildFilters { p with q := none }).matches c) := by
  obtain ⟨pq, cat, lvl, free, minp, maxp, minr, tg⟩ := p
  cases hq
  simp only [MongoFilter.matches, buildFilters, evalRegexOr_build]
  simp [truthyStr, hne, Bool.and_assoc, Bool.or_assoc]

/-- C2 witness: with the concrete search text `"design"` and a concrete
document, the filter evaluation equals the substring disjunction ANDed
with the remaining (here empty) filter. -/
theorem c2_q_is_substring_disjunction_witness :
    ({ q := some "design" } : ListParams).q = some "design" ∧
      ("design" : String) ≠ "" ∧
      (buildFilters { q := some "design" }).matches c1Doc =
        ((icontains c1Doc.title "design" || icontains c1Doc.description "design" ||
            icontains c1Doc.instructor_name "design") &&
          (buildFilters { ({ q := some "design" } : ListParams) with q := none }).matches c1Doc) :=
  ⟨rfl, by decide,
    c2_q_is_substring_disjunction { q := some "design" } "design" c1Doc rfl (by decide)⟩

/-- C10: supplying `q`, `category`, `level` or `tag` as the empty
string leaves the produced filter exactly as if the parameter were
absent, while supplying `is_free = false` adds the equality predicate
`is_free == false` rather than being ignored. -/
theorem c10_empty_string_vs_false (p : ListParams) (c : Course) :
    buildFilters { p with q := some "" } = buildFilters { p with q := none } ∧
    buildFilters { p with category := some "" } =
      buildFilters { p with category := none } ∧
    buildFilters { p with level := some "" } =
      buildFilters { p with level := none } ∧
    buildFilters { p with tag := some "" } =
      buildFilters { p with tag := none } ∧
    (buildFilters { p with is_free := some false }).matches c =
      ((c.is_free == false) &&
        (buildFilters { p with is_free := none }).matches c) := by
  refine ⟨rfl, rfl, rfl, rfl, ?_⟩
  simp only [MongoFilter.matches, buildFilters, evalBoolEq]
  cases hf : c.is_free <;> simp

/-- C4: the sort parameter selects the (field, direction) pair from the
fixed five-entry table, and every unrecognized sort string silently
yields exactly the pair of `"popular"`. -/
theorem c4_sort_selection (s : String)
    (hs : s ∉ ["popular", "rating", "new", "price_asc", "price_desc"]) :
    sortKey "popular" = ("students", -1) ∧
    sortKey "rating" = ("rating", -1) ∧
    sortKey "new" = ("created_at", -1) ∧
    sortKey "price_asc" = ("price", 1) ∧
    sortKey "price_desc" = ("price", -1) ∧
    sortKey s = sortKey "popular" := by
  simp only [List.mem_cons, List.not_mem_nil, or_false, not_or] at hs
  obtain ⟨h1, h2, h3, h4, h5⟩ := hs
  refine ⟨rfl, rfl, rfl, rfl, rfl, ?_⟩
  have g1 : (s == ("popular" : String)) = false := beq_eq_false_iff_ne.mpr h1
  have g2 : (s == ("rating" : String)) = false := beq_eq_false_iff_ne.mpr h2
  have g3 : (s == ("new" : String)) = false := beq_eq_false_iff_ne.mpr h3
  have g4 : (s == ("price_asc" : String)) = false := beq_eq_false_iff_ne.mpr h4
  have g5 : (s == ("price_desc" : String)) = false := beq_eq_false_iff_ne.mpr h5
  simp [sortKey, sort_map, List.lookup, g1, g2, g3, g4, g5]

/-- C4 witness: `sort="unknownvalue"` yields the pair of `"popular"`. -/
theorem c4_sort_selection_witness :
    ("unknownvalue" : String) ∉
        ["popular", "rating", "new", "price_asc", "price_desc"] ∧
      sortKey "unknownvalue" = sortKey "popular" :=
  ⟨by decide, (c4_sort_selection "unknownvalue" (by decide)).2.2.2.2.2⟩

/-- Nat form of ceiling division: for positive `p`,
`(t + p - 1) / p = ⌈t / p⌉` over the rationals. -/
theorem natCeilDiv (t p : ℕ) (hp : 1 ≤ p) :
    ((t + p - 1) / p : ℕ) = ⌈(t : ℚ) / (p : ℚ)⌉₊ := by
  rcases Nat.eq_zero_or_pos t with ht | ht
  · subst ht
    have h0 : (p - 1) / p = 0 := Nat.div_eq_of_lt (by omega)
    simp [h0]
  · have hp0 : 0 < p := hp
    have hmod := Nat.div_add_mod (t + p - 1) p
    have hrlt : (t + p - 1) % p < p := Nat.mod_lt _ hp0
    have hn1 : 1 ≤ (t + p - 1) / p := (Nat.one_le_div_iff hp0).mpr (by omega)
    set n := (t + p - 1) / p with hn
    set r := (t + p - 1) % p with hr
    have hpc : (0 : ℚ) < p := by exact_mod_cast hp0
    have hmodc : (p : ℚ) * n + r = (t : ℚ) + p - 1 := by
      have h1 : ((p * n + r : ℕ) : ℚ) = ((t + p - 1 : ℕ) : ℚ) := by
        exact_mod_cast congrArg (fun x : ℕ => (x : ℚ)) hmod
      push_cast [Nat.cast_sub (show 1 ≤ t + p by omega)] at h1
      linarith [h1]
    have hrc : (r : ℚ) + 1 ≤ p := by exact_mod_cast hrlt
    have hr0 : (0 : ℚ) ≤ r := by positivity
    have hn1c : (1 : ℚ) ≤ n := by exact_mod_cast hn1
    have htc : (1 : ℚ) ≤ t := by exact_mod_cast ht
    symm
    rw [Nat.ceil_eq_iff (by omega)]
    constructor
    · rw [lt_div_iff₀ hpc]
      have hc : ((n - 1 : ℕ) : ℚ) = (n : ℚ) - 1 := by
        push_cast [Nat.cast_sub hn1]
        ring
      rw [hc]
      nlinarith [hmodc, hr0]
    · rw [div_le_iff₀ hpc]
      nlinarith [hmodc, hrc]

/-- Successful runs of `list_courses` in closed form. -/
theorem list_courses_eq (store : List Course) (p : ListParams) (srt : String)
    (page page_size : ℤ)
    (hv : validRequest page page_size p.min_price p.max_price p.min_rating = true) :
    list_courses store p srt page page_size =
      Except.ok
        { items :=
            ((sortDocs (sortKey srt).1 (sortKey srt).2
                (store.filter (buildFilters p).matches)).drop
                  (skipOf page page_size).toNat).take page_size.toNat
          total := (store.filter (buildFilters p).matches).length
          page := page
          page_size := page_size
          total_pages :=
            total_pages ((store.filter (buildFilters p).matches).length : ℤ)
              page_size } := by
  simp [list_courses, hv]

/-- C3: for valid paging inputs the calculator gives
`skip = (page - 1) * page_size` and
`total_pages = ⌈total / page_size⌉`; in the unreachable
`page_size = 0` branch `total_pages` is defined as `1`; and a page
beyond the last yields a successful response with an empty item list,
not an error. -/
theorem c3_pagination (page page_size : ℤ) (total : ℕ) (store : List Course)
    (p : ListParams) (srt : String)
    (hp : 1 ≤ page) (hps1 : 1 ≤ page_size) (hps2 : page_size ≤ 60)
    (hv : validRequest page page_size p.min_price p.max_price p.min_rating = true)
    (hbeyond : ((store.filter (buildFilters p).matches).length : ℤ) ≤
      skipOf page page_size) :
    skipOf page page_size = (page - 1) * page_size ∧
    total_pages (total : ℤ) page_size = (⌈(total : ℚ) / (page_size : ℚ)⌉₊ : ℤ) ∧
    total_pages (total : ℤ) 0 = 1 ∧
    ∃ resp, list_courses store p srt page page_size = Except.ok resp ∧
      resp.items = [] := by
  refine ⟨rfl, ?_, by simp [total_pages], ?_⟩
  · obtain ⟨pn, rfl⟩ := Int.eq_ofNat_of_zero_le (le_trans zero_le_one hps1)
    have hpn : 1 ≤ pn := by exact_mod_cast hps1
    rw [total_pages, if_pos (by omega)]
    rw [Int.fdiv_eq_ediv _ (by omega)]
    have hcast : ((total : ℤ) + (pn : ℤ) - 1) = ((total + pn - 1 : ℕ) : ℤ) := by
      omega
    rw [hcast, ← Int.ofNat_ediv, natCeilDiv total pn hpn]
    have hq : (((pn : ℤ) : ℚ)) = (pn : ℚ) := by push_cast; ring
    rw [hq]
  · refine ⟨_, list_courses_eq store p srt page page_size hv, ?_⟩
    have hsk : 0 ≤ skipOf page page_size :=
      mul_nonneg (by omega) (by omega)
    have hlen :
        (sortDocs (sortKey srt).1 (sortKey srt).2
            (store.filter (buildFilters p).matches)).length ≤
          (skipOf page page_size).toNat := by
      rw [sortDocs, List.length_mergeSort]
      omega
    simp [List.drop_eq_nil_of_le hlen]

/-- C3 witness: `page = 2`, `page_size = 9`, `total = 24` on an empty
store (so page 2 is beyond the last page). -/
theorem c3_pagination_witness :
    (1 : ℤ) ≤ 2 ∧ (1 : ℤ) ≤ 9 ∧ (9 : ℤ) ≤ 60 ∧
    validRequest 2 9 none none none = true ∧
    ((([] : List Course).filter (buildFilters {}).matches).length : ℤ) ≤
      skipOf 2 9 ∧
    (skipOf 2 9 = (2 - 1) * 9 ∧
     total_pages ((24 : ℕ) : ℤ) 9 = (⌈((24 : ℕ) : ℚ) / ((9 : ℤ) : ℚ)⌉₊ : ℤ) ∧
     total_pages ((24 : ℕ) : ℤ) 0 = 1 ∧
     ∃ resp, list_courses [] {} "popular" 2 9 = Except.ok resp ∧
       resp.items = []) :=
  ⟨by decide, by decide, by decide, by decide, by decide,
    c3_pagination 2 9 24 [] {} "popular" (by decide) (by decide) (by decide)
      (by decide) (by decide)⟩

/-- Failing the declared bounds is exactly the disjunction of the
violations the spec lists. -/
theorem validRequest_false_iff (page page_size : ℤ)
    (a b r : Option ℚ) :
    validRequest page page_size a b r = false ↔
      (page < 1 ∨ page_size < 1 ∨ 60 < page_size ∨
       (∃ v, r = some v ∧ (v < 0 ∨ 5 < v)) ∨
       (∃ v, a = some v ∧ v < 0) ∨
       (∃ v, b = some v ∧ v < 0)) := by
  cases a <;> cases b <;> cases r <;>
    simp [validRequest, not_le, ← not_lt] <;> tauto

/-- C7: a listing request with `page < 1`, `page_size` outside
`[1, 60]`, `min_rating` outside `[0, 5]` or a negative price bound is
rejected as a bad-request validation failure before any query runs,
these rejections are exactly the error conditions, and every other
request produces a successful response. -/
theorem c7_validation_rejects (store : List Course) (p : ListParams)
    (srt : String) (page page_size : ℤ) :
    (list_courses store p srt page page_size =
        Except.error ApiFailure.validationFailure ↔
      (page < 1 ∨ page_size < 1 ∨ 60 < page_size ∨
       (∃ v, p.min_rating = some v ∧ (v < 0 ∨ 5 < v)) ∨
       (∃ v, p.min_price = some v ∧ v < 0) ∨
       (∃ v, p.max_price = some v ∧ v < 0))) ∧
    (∀ e, list_courses store p srt page page_size = Except.error e →
      e = ApiFailure.validationFailure) ∧
    (¬ (page < 1 ∨ page_size < 1 ∨ 60 < page_size ∨
        (∃ v, p.min_rating = some v ∧ (v < 0 ∨ 5 < v)) ∨
        (∃ v, p.min_price = some v ∧ v < 0) ∨
        (∃ v, p.max_price = some v ∧ v < 0)) →
      ∃ resp, list_courses store p srt page page_size = Except.ok resp) := by
  rw [← validRequest_false_iff page page_size p.min_price p.max_price
    p.min_rating]
  cases hv : validRequest page page_size p.min_price p.max_price p.min_rating
  · exact ⟨by simp [list_courses, hv], fun e _ => by cases e; rfl,
      fun hcon => absurd rfl hcon⟩
  · exact ⟨by simp [list_courses, hv], fun e he => by
      simp [list_courses, hv] at he,
      fun _ => ⟨_, list_courses_eq store p srt page page_size hv⟩⟩

/-- C7 witness: `page = 0` is rejected as a validation failure. -/
theorem c7_validation_rejects_witness :
    list_courses [] {} "popular" 0 9 =
      Except.error ApiFailure.validationFailure :=
  (c7_validation_rejects [] {} "popular" 0 9).1.mpr (Or.inl (by decide))

/-- C6: seeding an empty collection inserts the 24 generated records in
one batch and reports the inserted count; within the generated indices
1..24, `is_free` holds exactly when `i % 5 = 0` and the price is `0`
exactly for those (4 free records in total); seeding a non-empty
collection inserts nothing and reports already-seeded. -/
theorem c6_seed_behavior (coll : List Course) (i : ℕ)
    (hne : coll ≠ []) (hi : i ∈ List.range' 1 24) :
    seed_courses [] = (([] : List Course) ++ sample_courses,
      SeedResult.inserted 24) ∧
    sample_courses.length = 24 ∧
    (mkSeedCourse i).is_free = decide (i % 5 = 0) ∧
    ((mkSeedCourse i).price = 0 ↔ i % 5 = 0) ∧
    (sample_courses.filter fun c => c.is_free).length = 4 ∧
    seed_courses coll = (coll, SeedResult.alreadySeeded) := by
  have hlen : sample_courses.length = 24 := by decide
  have hfree : ∀ j ∈ List.range' 1 24,
      (mkSeedCourse j).is_free = decide (j % 5 = 0) ∧
        ((mkSeedCourse j).price = 0 ↔ j % 5 = 0) := by
    intro j hj
    rw [List.mem_range'_1] at hj
    obtain ⟨hj1, hj2⟩ := hj
    interval_cases j <;> constructor <;> norm_num [mkSeedCourse]
  refine ⟨by simp [seed_courses, hlen], hlen, (hfree i hi).1, (hfree i hi).2,
    by decide, ?_⟩
  rw [seed_courses, if_pos (List.length_pos.mpr hne)]

/-- C6 witness: seeding index 5 is free, and a one-document collection
is reported as already seeded. -/
theorem c6_seed_behavior_witness :
    ([mkSeedCourse 1] : List Course) ≠ [] ∧ 5 ∈ List.range' 1 24 ∧
      seed_courses [mkSeedCourse 1] =
        ([mkSeedCourse 1], SeedResult.alreadySeeded) :=
  ⟨by decide, by decide,
    (c6_seed_behavior [mkSeedCourse 1] 5 (by decide) (by decide)).2.2.2.2.2⟩

/-- Shorthand for the discount invariant: whenever `old_price` is
present it exceeds `price`. -/
def oldPriceExceeds (c : Course) : Prop :=
  ∀ op, c.old_price = some op → c.price < op

instance oldPriceExceeds.dec (c : Course) : Decidable (oldPriceExceeds c) :=
  match h : c.old_price with
  | none =>
      isTrue (by
        intro op hop
        rw [h] at hop
        simp at hop)
  | some v =>
      if hv : c.price < v then
        isTrue (by
          intro op hop
          rw [h] at hop
          obtain rfl : v = op := Option.some.inj hop
          exact hv)
      else isFalse fun hall => hv (hall v h)

/-- C9: every one of the 24 generated Course records satisfies the
data-model invariants: `rating ∈ [0, 5]`, non-negative counts, lessons
and price, and `old_price` (when present) exceeding `price`. -/
theorem c9_seed_invariants (c : Course) (hc : c ∈ sample_courses) :
    0 ≤ c.rating ∧ c.rating ≤ 5 ∧ 0 ≤ c.rating_count ∧ 0 ≤ c.students ∧
      0 ≤ c.lessons ∧ 0 ≤ c.price ∧ oldPriceExceeds c := by
  simp only [sample_courses] at hc
  obtain ⟨j, hj, rfl⟩ := List.mem_map.mp hc
  rw [List.mem_range'_1] at hj
  obtain ⟨hj1, hj2⟩ := hj
  interval_cases j <;> norm_num [mkSeedCourse, oldPriceExceeds] <;>
    exact fun op hop => nomatch hop

/-- C9 witness: the third generated record (which carries an
`old_price`). -/
theorem c9_seed_invariants_witness :
    mkSeedCourse 3 ∈ sample_courses ∧
      (0 ≤ (mkSeedCourse 3).rating ∧ (mkSeedCourse 3).rating ≤ 5 ∧
        0 ≤ (mkSeedCourse 3).rating_count ∧ 0 ≤ (mkSeedCourse 3).students ∧
        0 ≤ (mkSeedCourse 3).lessons ∧ 0 ≤ (mkSeedCourse 3).price ∧
        oldPriceExceeds (mkSeedCourse 3)) :=
  ⟨List.mem_map_of_mem mkSeedCourse (by decide),
    c9_seed_invariants (mkSeedCourse 3)
      (List.mem_map_of_mem mkSeedCourse (by decide))⟩

/-- Totality of the lexicographic comparison. -/
theorem lexLe_total : ∀ as bs : List Char,
    lexLe as bs = true ∨ lexLe bs as = true := by
  intro as
  induction as with
  | nil => intro bs; left; rfl
  | cons a as ih =>
    intro bs
    cases bs with
    | nil => right; rfl
    | cons b bs =>
      by_cases h1 : a.toNat < b.toNat
      · left; simp [lexLe, h1]
      · by_cases h2 : b.toNat < a.toNat
        · right; simp [lexLe, h2]
        · simpa [lexLe, h1, h2] using ih bs

/-- Transitivity of the lexicographic comparison. -/
theorem lexLe_trans : ∀ as bs cs : List Char,
    lexLe as bs = true → lexLe bs cs = true → lexLe as cs = true := by
  intro as
  induction as with
  | nil => intro bs cs _ _; rfl
  | cons a as ih =>
    intro bs cs hab hbc
    cases bs with
    | nil => simp [lexLe] at hab
    | cons b bs =>
      cases cs with
      | nil => simp [lexLe] at hbc
      | cons c cs =>
        simp only [lexLe] at hab hbc ⊢
        split_ifs at hab hbc ⊢ <;>
          first
            | rfl
            | omega
            | exact ih bs cs hab hbc

/-- Totality of `strLe` in the form `mergeSort` expects. -/
theorem strLe_total : ∀ a b : String, (strLe a b || strLe b a) = true := by
  intro a b
  rw [Bool.or_eq_true]
  exact lexLe_total a.toList b.toList

/-- Transitivity of `strLe`. -/
theorem strLe_trans : ∀ a b c : String,
    strLe a b = true → strLe b c = true → strLe a c = true :=
  fun a b c => lexLe_trans a.toList b.toList c.toList

/-- Deduplicating and sorting keeps exactly the original members,
sorts them, and leaves no duplicates. -/
theorem sortedDistinct (l : List String) :
    (∀ s, s ∈ l.dedup.mergeSort strLe ↔ s ∈ l) ∧
    (l.dedup.mergeSort strLe).Pairwise (fun a b => strLe a b = true) ∧
    (l.dedup.mergeSort strLe).Nodup := by
  refine ⟨fun s => by simp [List.mem_mergeSort, List.mem_dedup], ?_, ?_⟩
  · exact List.sorted_mergeSort strLe_trans strLe_total _
  · exact ((List.mergeSort_perm _ _).nodup_iff).mpr (List.nodup_dedup _)

/-- C8: the filters endpoint returns, for `category` and `level`, the
distinct values present in the collection sorted lexicographically
ascending, and the distinct tag values flattened across all documents'
tag sequences sorted ascending; on an empty collection it returns three
empty sequences. -/
theorem c8_facets (store : List Course) :
    (∀ s, s ∈ (get_filters store).1 ↔ ∃ c ∈ store, c.category = s) ∧
    (get_filters store).1.Pairwise (fun a b => strLe a b = true) ∧
    (get_filters store).1.Nodup ∧
    (∀ s, s ∈ (get_filters store).2.1 ↔ ∃ c ∈ store, c.level = s) ∧
    (get_filters store).2.1.Pairwise (fun a b => strLe a b = true) ∧
    (get_filters store).2.1.Nodup ∧
    (∀ s, s ∈ (get_filters store).2.2 ↔ ∃ c ∈ store, s ∈ c.tags) ∧
    (get_filters store).2.2.Pairwise (fun a b => strLe a b = true) ∧
    (get_filters store).2.2.Nodup ∧
    get_filters [] = ([], [], []) := by
  have h1 := sortedDistinct (store.map fun c => c.category)
  have h2 := sortedDistinct (store.map fun c => c.level)
  have h3 := sortedDistinct (store.flatMap fun c => c.tags)
  refine ⟨fun s => ?_, h1.2.1, h1.2.2, fun s => ?_, h2.2.1, h2.2.2,
    fun s => ?_, h3.2.1, h3.2.2,
    by simp [get_filters, List.dedup_nil, List.mergeSort_nil]⟩
  · exact (h1.1 s).trans (by simp [List.mem_map])
  · exact (h2.1 s).trans (by simp [List.mem_map])
  · exact (h3.1 s).trans (by simp [List.mem_flatMap])

/-- Looking a key up after removing it yields nothing. -/
theorem dictGet_remove_self (k : String) (d : BsonDoc) :
    dictGet k (dictRemove k d) = none := by
  induction d with
  | nil => rfl
  | cons kv rest ih =>
    by_cases h : kv.1 = k <;> simp [dictRemove, dictGet, h, ih]

/-- Removing one key leaves lookups of other keys unchanged. -/
theorem dictGet_remove_ne (k k2 : String) (d : BsonDoc) (h : k2 ≠ k) :
    dictGet k (dictRemove k2 d) = dictGet k d := by
  induction d with
  | nil => rfl
  | cons kv rest ih =>
    by_cases h1 : kv.1 = k2 <;> by_cases h2 : kv.1 = k <;>
      simp_all [dictRemove, dictGet]

/-- Setting a key makes its lookup yield the new value. -/
theorem dictGet_set_self (k : String) (v : BsonValue) (d : BsonDoc) :
    dictGet k (dictSet k v d) = some v := by
  induction d with
  | nil => simp [dictSet, dictGet]
  | cons kv rest ih =>
    by_cases h : kv.1 = k <;> simp [dictSet, dictGet, h, ih]

/-- Setting one key leaves lookups of other keys unchanged. -/
theorem dictGet_set_ne (k k2 : String) (v : BsonValue) (d : BsonDoc)
    (h : k2 ≠ k) :
    dictGet k (dictSet k2 v d) = dictGet k d := by
  induction d with
  | nil => simp [dictSet, dictGet, h]
  | cons kv rest ih =>
    by_cases h1 : kv.1 = k2 <;> by_cases h2 : kv.1 = k <;>
      simp_all [dictSet, dictGet]

/-- C5: serializing a stored document (`_id` present and holding the
ObjectId identity, no prior `id` field) removes the internal `_id`
field, adds `id` holding the identity's canonical string form, keeps
every other field unchanged, and on every document whose `_id` (if
present) is an ObjectId the output never contains `_id`. -/
theorem c5_serializer (doc : BsonDoc) (hex : String)
    (hid : dictGet "_id" doc = some (BsonValue.oid hex))
    (_hnoid : dictGet "id" doc = none) :
    dictGet "_id" (serialize_course doc) = none ∧
    dictGet "id" (serialize_course doc) = some (BsonValue.str hex) ∧
    (∀ k, k ≠ "_id" → k ≠ "id" →
      dictGet k (serialize_course doc) = dictGet k doc) ∧
    (∀ d : BsonDoc,
      (∀ v, dictGet "_id" d = some v → ∃ s, v = BsonValue.oid s) →
      dictGet "_id" (serialize_course d) = none) := by
  have hser : serialize_course doc =
      dictSet "id" (BsonValue.str hex) (dictRemove "_id" doc) := by
    rw [serialize_course, hid]
    rfl
  refine ⟨?_, ?_, ?_, ?_⟩
  · rw [hser, dictGet_set_ne _ _ _ _ (by decide), dictGet_remove_self]
  · rw [hser, dictGet_set_self]
  · intro k hk1 hk2
    rw [hser, dictGet_set_ne _ _ _ _ (fun he => hk2 he.symm),
      dictGet_remove_ne _ _ _ (fun he => hk1 he.symm)]
  · intro d hd
    cases hgot : dictGet "_id" d with
    | none => rw [serialize_course, hgot, hgot]
    | some v =>
        obtain ⟨s, rfl⟩ := hd v hgot
        rw [serialize_course, hgot]
        show dictGet "_id"
          (dictSet "id" (BsonValue.str s) (dictRemove "_id" d)) = none
        rw [dictGet_set_ne _ _ _ _ (by decide), dictGet_remove_self]

/-- C5 witness: a two-field stored document. -/
theorem c5_serializer_witness :
    dictGet "_id"
        [("_id", BsonValue.oid "64f0"), ("title", BsonValue.str "T")] =
      some (BsonValue.oid "64f0") ∧
    dictGet "id"
        [("_id", BsonValue.oid "64f0"), ("title", BsonValue.str "T")] =
      none ∧
    dictGet "_id" (serialize_course
      [("_id", BsonValue.oid "64f0"), ("title", BsonValue.str "T")]) = none ∧
    dictGet "id" (serialize_course
      [("_id", BsonValue.oid "64f0"), ("title", BsonValue.str "T")]) =
      some (BsonValue.str "64f0") :=
  ⟨rfl, rfl,
    (c5_serializer
      [("_id", BsonValue.oid "64f0"), ("title", BsonValue.str "T")]
      "64f0" rfl rfl).1,
    (c5_serializer
      [("_id", BsonValue.oid "64f0"), ("title", BsonValue.str "T")]
      "64f0" rfl rfl).2.1⟩

end CoursesApi
